import Mathlib

/-!
# Verification of the in-memory storage layer of a small CRM backend

This file embeds the `MemStorage` class of `server/storage.ts` (contacts,
activities and users held in JavaScript `Map`s) as pure Lean functions and
proves properties of its query, mutation and metrics operations.

Modelling conventions:
* A JavaScript `Map` is an association list `List (String × α)` in insertion
  order; `Map.get`, `Map.set` and `Map.delete` are `mget`, `mset`, `mdelete`.
  Real `Map`s never hold a key twice, so theorems that depend on key
  uniqueness carry a `Nodup` hypothesis on the key list.
* Timestamps (`Date` values) are `Int` milliseconds since the epoch.
* `string | null` fields are `Option String` (`none` = `null`/absent).
* `randomUUID()` and `new Date()` are passed in as explicit `id`/`now`
  arguments.
* Number arithmetic in `getMetrics` is idealized over `ℚ`; `Math.round` is
  round-half-towards-positive-infinity.
-/

namespace CRM

/-- JS truthiness of an optional string: `undefined`, `null` and `""` are
falsy, every other string is truthy. Models guards such as
`if (filters?.search)`. -/
def truthy : Option String → Bool
  | none => false
  | some s => s != ""

/-- `x || null` applied to an optional string field: a missing value, `null`
or the empty string all collapse to `null`; any other string is kept.
Models the normalizations in `createContact`/`createActivity`. -/
def jsOrNull : Option String → Option String
  | none => none
  | some s => if s == "" then none else some s

/-- `hay.includes(needle)`: substring test on the character lists. -/
def jsIncludes (hay needle : String) : Bool :=
  decide (needle.toList <:+: hay.toList)

/-- The `users` table row (`shared/schema.ts`). -/
structure User where
  id : String
  username : String
  password : String
deriving DecidableEq

/-- The `contacts` table row (`shared/schema.ts`). `status` is declared
`notNull` with default `"prospect"` in the schema, but `MemStorage.createContact`
merely spreads the insert object, which may omit `status`; `none` models that
absent (`undefined`) slot. -/
structure Contact where
  id : String
  name : String
  email : String
  phone : Option String
  company : Option String
  title : Option String
  status : Option String
  notes : Option String
  createdAt : Int
  updatedAt : Int
deriving DecidableEq

/-- The `activities` table row (`shared/schema.ts`). -/
structure Activity where
  id : String
  contactId : String
  type : String
  title : String
  description : Option String
  scheduledAt : Option Int
  completedAt : Option Int
  createdAt : Int
deriving DecidableEq

/-- `InsertContact = z.infer<typeof insertContactSchema>`: the contact columns
minus `id`/`createdAt`/`updatedAt`. `name` and `email` are required; the
nullable columns and the defaulted `status` column are optional. -/
structure InsertContact where
  name : String
  email : String
  phone : Option String := none
  company : Option String := none
  title : Option String := none
  status : Option String := none
  notes : Option String := none
deriving DecidableEq

/-- `Partial<InsertContact>`: every field may be absent (outer `none`).
For the nullable columns a present value may itself be `null`
(`some none`). A present field overwrites on spread-merge. -/
structure ContactUpdate where
  name : Option String := none
  email : Option String := none
  phone : Option (Option String) := none
  company : Option (Option String) := none
  title : Option (Option String) := none
  status : Option String := none
  notes : Option (Option String) := none
deriving DecidableEq

/-- `InsertActivity = z.infer<typeof insertActivitySchema>`: the activity
columns minus `id`/`createdAt`. -/
structure InsertActivity where
  contactId : String
  type : String
  title : String
  description : Option String := none
  scheduledAt : Option Int := none
  completedAt : Option Int := none
deriving DecidableEq

/-- The three `Map` collections of `MemStorage`. -/
structure MemStorage where
  users : List (String × User)
  contacts : List (String × Contact)
  activities : List (String × Activity)
deriving DecidableEq

/-- `MemStorage` as freshly constructed: all three maps empty. -/
def emptyStorage : MemStorage := ⟨[], [], []⟩

/-- `Map.get`: value at the (unique) key, if any. -/
def mget (m : List (String × α)) (k : String) : Option α :=
  match m with
  | [] => none
  | (k', v) :: t => if k' = k then some v else mget t k

/-- `Map.set`: replace the value at an existing key in place, otherwise
append a new entry (JS `Map`s preserve insertion order). -/
def mset (m : List (String × α)) (k : String) (v : α) : List (String × α) :=
  match m with
  | [] => [(k, v)]
  | (k', v') :: t => if k' = k then (k, v) :: t else (k', v') :: mset t k v

/-- `Map.delete`: remove the entry at the key; the flag reports whether an
entry was present. -/
def mdelete (m : List (String × α)) (k : String) : Bool × List (String × α) :=
  match m with
  | [] => (false, [])
  | (k', v) :: t =>
    if k' = k then (true, t)
    else
      let r := mdelete t k
      (r.1, (k', v) :: r.2)

/-- The optional query filters accepted by `getContacts`. -/
structure Filters where
  search : Option String := none
  company : Option String := none
  status : Option String := none
deriving DecidableEq

/-- The search predicate applied per contact inside `getContacts`:
`name.toLowerCase().includes(s) || email.toLowerCase().includes(s) ||
(company && company.toLowerCase().includes(s))`. -/
def searchMatch (searchLower : String) (c : Contact) : Bool :=
  jsIncludes c.name.toLower searchLower ||
  jsIncludes c.email.toLower searchLower ||
  (match c.company with
   | some comp => comp != "" && jsIncludes comp.toLower searchLower
   | none => false)

/-- `MemStorage.getContacts`: take the map's values, apply the three
optional filters in order (each guarded by JS truthiness, and for
`company`/`status` also by the `"all"` sentinel), then sort by `updatedAt`
descending. `Array.prototype.sort` is a stable sort, modelled here by
insertion sort (also stable) on the comparator's order. -/
def getContacts (fl : Filters) (st : MemStorage) : List Contact :=
  let cs0 := st.contacts.map Prod.snd
  let cs1 :=
    if truthy fl.search then cs0.filter (searchMatch ((fl.search.getD "").toLower))
    else cs0
  let cs2 :=
    if truthy fl.company && ((fl.company.getD "") != "all") then
      cs1.filter (fun c => decide (c.company = fl.company))
    else cs1
  let cs3 :=
    if truthy fl.status && ((fl.status.getD "") != "all") then
      cs2.filter (fun c => decide (c.status = fl.status))
    else cs2
  cs3.insertionSort (fun a b => b.updatedAt ≤ a.updatedAt)

/-- `MemStorage.getContact`: point lookup. -/
def getContact (id : String) (st : MemStorage) : Option Contact :=
  mget st.contacts id

/-- `MemStorage.createContact`: normalize the four nullable optional fields
with `|| null`, spread the rest (so an omitted `status` stays absent), stamp
`id` and `createdAt = updatedAt = now`, and store at `id`. -/
def createContact (ins : InsertContact) (id : String) (now : Int) (st : MemStorage) :
    Contact × MemStorage :=
  let contact : Contact :=
    { id := id
      name := ins.name
      email := ins.email
      phone := jsOrNull ins.phone
      company := jsOrNull ins.company
      title := jsOrNull ins.title
      status := ins.status
      notes := jsOrNull ins.notes
      createdAt := now
      updatedAt := now }
  (contact, { st with contacts := mset st.contacts id contact })

/-- `MemStorage.updateContact`: on a hit, spread the patch over the existing
record (a field present in the patch overwrites, `id`/`createdAt` are not in
the patch type), set `updatedAt = now` and store back; on a miss return
`none` and leave the state alone. -/
def updateContact (id : String) (p : ContactUpdate) (now : Int) (st : MemStorage) :
    Option Contact × MemStorage :=
  match mget st.contacts id with
  | none => (none, st)
  | some existing =>
    let updated : Contact :=
      { id := existing.id
        name := p.name.getD existing.name
        email := p.email.getD existing.email
        phone := p.phone.getD existing.phone
        company := p.company.getD existing.company
        title := p.title.getD existing.title
        status := match p.status with | some s => some s | none => existing.status
        notes := p.notes.getD existing.notes
        createdAt := existing.createdAt
        updatedAt := now }
    (some updated, { st with contacts := mset st.contacts id updated })

/-- `MemStorage.deleteContact`: delete the contact entry, then walk a
snapshot of the activity entries and delete every one whose `contactId`
equals `id`; return whether the contact itself was present. -/
def deleteContact (id : String) (st : MemStorage) : Bool × MemStorage :=
  let r := mdelete st.contacts id
  let acts := st.activities.foldl
    (fun m e => if e.2.contactId = id then (mdelete m e.1).2 else m)
    st.activities
  (r.1, { st with contacts := r.2, activities := acts })

/-- `MemStorage.getActivities`: all activity values, filtered to one
`contactId` when that argument is truthy, sorted by `createdAt`
descending. -/
def getActivities (contactId : Option String) (st : MemStorage) : List Activity :=
  let as0 := st.activities.map Prod.snd
  let as1 :=
    if truthy contactId then as0.filter (fun a => decide (a.contactId = contactId.getD ""))
    else as0
  as1.insertionSort (fun a b => b.createdAt ≤ a.createdAt)

/-- `MemStorage.createActivity`: normalize `description` with `|| null`
(`scheduledAt`/`completedAt` are `Date` values, which are always truthy, so
`|| null` only replaces `null`/`undefined` — the identity on our `Option`),
stamp `id` and `createdAt = now`, and store at `id`. -/
def createActivity (ins : InsertActivity) (id : String) (now : Int) (st : MemStorage) :
    Activity × MemStorage :=
  let activity : Activity :=
    { id := id
      contactId := ins.contactId
      type := ins.type
      title := ins.title
      description := jsOrNull ins.description
      scheduledAt := ins.scheduledAt
      completedAt := ins.completedAt
      createdAt := now }
  (activity, { st with activities := mset st.activities id activity })

/-- The record returned by `getMetrics`. `conversionRate` is idealized
over `ℚ`. -/
structure Metrics where
  totalContacts : Nat
  activeLeads : Nat
  todayActivities : Nat
  conversionRate : ℚ
deriving DecidableEq

/-- JavaScript `Math.round`: round half towards positive infinity. -/
def jsRound (y : ℚ) : ℤ := (y + 1/2).floor

/-- `MemStorage.getMetrics`. The current local day is the half-open
interval `[todayStart, tomorrowStart)`, whose bounds the source computes
from the wall clock (`setHours(0,0,0,0)` / `setDate(+1)`) and which we take
as parameters. -/
def getMetrics (todayStart tomorrowStart : Int) (st : MemStorage) : Metrics :=
  let contacts := st.contacts.map Prod.snd
  let activities := st.activities.map Prod.snd
  let totalContacts := contacts.length
  let activeLeads := (contacts.filter (fun c => decide (c.status = some "prospect"))).length
  let todayActivities := (activities.filter (fun a =>
      decide (todayStart ≤ a.createdAt) && decide (a.createdAt < tomorrowStart))).length
  let activeContacts := (contacts.filter (fun c => decide (c.status = some "active"))).length
  let conversionRate : ℚ :=
    if totalContacts > 0 then ((activeContacts : ℚ) / (totalContacts : ℚ)) * 100 else 0
  { totalContacts := totalContacts
    activeLeads := activeLeads
    todayActivities := todayActivities
    conversionRate := (jsRound (conversionRate * 10) : ℚ) / 10 }

/-! ## Association-map lemmas -/

theorem mget_mset_self (m : List (String × α)) (k : String) (v : α) :
    mget (mset m k v) k = some v := by
  induction m with
  | nil => simp [mset, mget]
  | cons e t ih =>
    obtain ⟨k', v'⟩ := e
    by_cases h : k' = k
    · simp [mset, h, mget]
    · simp [mset, h, mget, ih]

theorem mget_eq_none_of_not_mem (m : List (String × α)) (k : String)
    (h : ∀ e ∈ m, e.1 ≠ k) : mget m k = none := by
  induction m with
  | nil => rfl
  | cons e t ih =>
    obtain ⟨k', v'⟩ := e
    have hk : k' ≠ k := h (k', v') (List.mem_cons_self _ _)
    simp only [mget, if_neg hk]
    exact ih fun x hx => h x (List.mem_cons_of_mem _ hx)

theorem mdelete_of_not_mem (m : List (String × α)) (k : String)
    (h : ∀ e ∈ m, e.1 ≠ k) : mdelete m k = (false, m) := by
  induction m with
  | nil => rfl
  | cons e t ih =>
    obtain ⟨k', v'⟩ := e
    have hk : k' ≠ k := h (k', v') (List.mem_cons_self _ _)
    simp only [mdelete, if_neg hk]
    rw [ih fun x hx => h x (List.mem_cons_of_mem _ hx)]

theorem mdelete_fst_of_mem (m : List (String × α)) (k : String)
    (h : ∃ e ∈ m, e.1 = k) : (mdelete m k).1 = true := by
  induction m with
  | nil => simp at h
  | cons e t ih =>
    obtain ⟨k', v'⟩ := e
    by_cases hk : k' = k
    · simp [mdelete, hk]
    · simp only [mdelete, if_neg hk]
      apply ih
      rcases h with ⟨x, hx, hxk⟩
      rcases List.mem_cons.1 hx with h1 | h2
      · exact absurd (by rw [h1] at hxk; exact hxk) hk
      · exact ⟨x, h2, hxk⟩

theorem mget_mdelete_self (m : List (String × α)) (k : String)
    (hnd : (m.map Prod.fst).Nodup) : mget (mdelete m k).2 k = none := by
  induction m with
  | nil => rfl
  | cons e t ih =>
    obtain ⟨k', v'⟩ := e
    rw [List.map_cons, List.nodup_cons] at hnd
    by_cases hk : k' = k
    · simp only [mdelete, if_pos hk]
      apply mget_eq_none_of_not_mem
      intro x hx hxk
      have hmem : x.1 ∈ List.map Prod.fst t := List.mem_map_of_mem Prod.fst hx
      rw [hxk, ← hk] at hmem
      exact hnd.1 hmem
    · simp only [mdelete, if_neg hk, mget]
      exact ih hnd.2

/-! ## The cascade inside `deleteContact` -/

theorem cascade_skip (id : String) (e : String × Activity)
    (l acc : List (String × Activity)) (h : ∀ x ∈ l, x.1 ≠ e.1) :
    l.foldl (fun m x => if x.2.contactId = id then (mdelete m x.1).2 else m) (e :: acc)
      = e :: l.foldl (fun m x => if x.2.contactId = id then (mdelete m x.1).2 else m) acc := by
  induction l generalizing acc with
  | nil => rfl
  | cons y t ih =>
    have hy : y.1 ≠ e.1 := h y (List.mem_cons_self _ _)
    have hstep : (if y.2.contactId = id then (mdelete (e :: acc) y.1).2 else e :: acc)
        = e :: (if y.2.contactId = id then (mdelete acc y.1).2 else acc) := by
      by_cases hc : y.2.contactId = id
      · obtain ⟨k', v'⟩ := e
        simp only [if_pos hc, mdelete]
        rw [if_neg (fun hh => hy hh.symm)]
      · simp [hc]
    simp only [List.foldl_cons, hstep]
    exact ih _ fun x hx => h x (List.mem_cons_of_mem _ hx)

theorem cascade_eq_filter (id : String) (m : List (String × Activity))
    (hnd : (m.map Prod.fst).Nodup) :
    m.foldl (fun acc x => if x.2.contactId = id then (mdelete acc x.1).2 else acc) m
      = m.filter (fun e => !decide (e.2.contactId = id)) := by
  induction m with
  | nil => rfl
  | cons e t ih =>
    rw [List.map_cons, List.nodup_cons] at hnd
    have hnotin : ∀ x ∈ t, x.1 ≠ e.1 := by
      intro x hx hxe
      exact hnd.1 (hxe ▸ List.mem_map_of_mem Prod.fst hx)
    by_cases hc : e.2.contactId = id
    · have hdel : (mdelete (e :: t) e.1).2 = t := by
        obtain ⟨k', v'⟩ := e
        simp [mdelete]
      simp only [List.foldl_cons, if_pos hc, hdel]
      rw [ih hnd.2]
      simp [hc]
    · simp only [List.foldl_cons, if_neg hc, List.filter_cons]
      rw [cascade_skip id e t t hnotin, ih hnd.2]
      simp [hc]

/-- Membership through a conditionally applied filter. -/
theorem mem_filter_if {α : Type} {l : List α} {p : α → Bool} {cond : Bool} {c : α} :
    (c ∈ if cond then l.filter p else l) ↔ c ∈ l ∧ (cond = true → p c = true) := by
  cases cond <;> simp [List.mem_filter]

/-- A Bool implication written as `!b || c`. -/
theorem imp_iff_not_or_bool {b c : Bool} : (b = true → c = true) ↔ (!b || c) = true := by
  cases b <;> cases c <;> simp

/-- `Rat.floor` agrees with the `FloorRing` floor on `ℚ`. -/
theorem rat_floor_eq_floor (q : ℚ) : q.floor = ⌊q⌋ := rfl

/-- Every activity returned by `getActivities` is a value of the activity map. -/
theorem mem_getActivities_sub {cid : Option String} {st : MemStorage} {a : Activity}
    (h : a ∈ getActivities cid st) : a ∈ st.activities.map Prod.snd := by
  simp only [getActivities, List.mem_insertionSort] at h
  exact (mem_filter_if.mp h).1

/-! ## C1: delete of a missing contact -/

/-- An activity whose `contactId` refers to no stored contact; reachable
because `createActivity` performs no referential check. -/
def orphanActivity : Activity :=
  { id := "a1", contactId := "ghost", type := "call", title := "Follow up"
    description := none, scheduledAt := none, completedAt := none, createdAt := 0 }

/-- A state with no contacts and one orphaned activity. -/
def orphanState : MemStorage := ⟨[], [], [("a1", orphanActivity)]⟩

/-- **C1** is false as stated: deleting the absent id `"ghost"` returns
`false`, yet the activity cascade still runs and removes the orphaned
activity whose `contactId` is `"ghost"`, so the collections are not left
exactly as they were. -/
theorem C1_counterexample :
    (deleteContact "ghost" orphanState).1 = false
      ∧ (deleteContact "ghost" orphanState).2.activities ≠ orphanState.activities := by
  decide

/-- **C1** (amended): `deleteContact` on an id absent from the contacts map
returns `false` and leaves users and contacts unchanged, but the activity
cascade still removes every activity whose `contactId` equals the id; all
three collections are unchanged exactly when no activity references the
id. -/
theorem C1_delete_missing (id : String) (st : MemStorage)
    (hid : ∀ e ∈ st.contacts, e.1 ≠ id)
    (ha : (st.activities.map Prod.fst).Nodup) :
    (deleteContact id st).1 = false
      ∧ (deleteContact id st).2.users = st.users
      ∧ (deleteContact id st).2.contacts = st.contacts
      ∧ (deleteContact id st).2.activities
          = st.activities.filter (fun e => !decide (e.2.contactId = id)) := by
  have hdel := mdelete_of_not_mem st.contacts id hid
  have hcas := cascade_eq_filter id st.activities ha
  simp only [deleteContact, hdel, hcas]
  exact ⟨trivial, trivial, trivial, trivial⟩

/-- A state exercising `C1_delete_missing`: one contact, one orphaned
activity pointing at the missing id `"ghost"`. -/
def w1State : MemStorage :=
  ⟨[], [("c9", ⟨"c9", "Zoe", "zoe@x.com", none, none, none, some "active", none, 0, 0⟩)],
   [("a1", orphanActivity)]⟩

theorem C1_delete_missing_witness :
    (deleteContact "ghost" w1State).1 = false
      ∧ (deleteContact "ghost" w1State).2.users = w1State.users
      ∧ (deleteContact "ghost" w1State).2.contacts = w1State.contacts
      ∧ (deleteContact "ghost" w1State).2.activities
          = w1State.activities.filter (fun e => !decide (e.2.contactId = "ghost")) :=
  C1_delete_missing "ghost" w1State (by decide) (by decide)

/-! ## C2: delete of an existing contact cascades -/

/-- **C2**: deleting an existing contact returns `true`; afterwards the
contact is gone, every activity whose `contactId` equals the id is removed,
and neither `getActivities()` nor `getActivities(id)` returns such an
activity. -/
theorem C2_delete_existing (id : String) (st : MemStorage)
    (hmem : ∃ e ∈ st.contacts, e.1 = id)
    (hc : (st.contacts.map Prod.fst).Nodup)
    (ha : (st.activities.map Prod.fst).Nodup) :
    (deleteContact id st).1 = true
      ∧ getContact id (deleteContact id st).2 = none
      ∧ (deleteContact id st).2.activities
          = st.activities.filter (fun e => !decide (e.2.contactId = id))
      ∧ (∀ a ∈ getActivities none (deleteContact id st).2, a.contactId ≠ id)
      ∧ (∀ a ∈ getActivities (some id) (deleteContact id st).2, a.contactId ≠ id) := by
  have hacts : (deleteContact id st).2.activities
      = st.activities.filter (fun e => !decide (e.2.contactId = id)) := by
    simp only [deleteContact]
    exact cascade_eq_filter id st.activities ha
  have hclean : ∀ cid, ∀ a ∈ getActivities cid (deleteContact id st).2, a.contactId ≠ id := by
    intro cid a hA
    have hmap := mem_getActivities_sub hA
    rw [hacts] at hmap
    rcases List.mem_map.1 hmap with ⟨e, he, hea⟩
    have := (List.mem_filter.1 he).2
    simp only [Bool.not_eq_eq_eq_not, Bool.not_true, decide_eq_false_iff_not] at this
    rw [← hea]
    exact this
  refine ⟨?_, ?_, hacts, hclean none, hclean (some id)⟩
  · simp only [deleteContact]
    exact mdelete_fst_of_mem st.contacts id hmem
  · simp only [getContact, deleteContact]
    exact mget_mdelete_self st.contacts id hc

/-- A state exercising `C2_delete_existing`: contact `"c1"` with one
activity of its own and one belonging to another contact. -/
def w2State : MemStorage :=
  ⟨[], [("c1", ⟨"c1", "Ann", "ann@x.com", none, none, none, some "prospect", none, 0, 0⟩),
        ("c2", ⟨"c2", "Bob", "bob@x.com", none, none, none, some "active", none, 1, 1⟩)],
   [("a1", ⟨"a1", "c1", "call", "Intro call", none, none, none, 5⟩),
    ("a2", ⟨"a2", "c2", "email", "Quote", none, none, none, 6⟩)]⟩

theorem C2_delete_existing_witness :
    (deleteContact "c1" w2State).1 = true
      ∧ getContact "c1" (deleteContact "c1" w2State).2 = none
      ∧ (deleteContact "c1" w2State).2.activities
          = w2State.activities.filter (fun e => !decide (e.2.contactId = "c1")) :=
  ⟨(C2_delete_existing "c1" w2State (by decide) (by decide) (by decide)).1,
   (C2_delete_existing "c1" w2State (by decide) (by decide) (by decide)).2.1,
   (C2_delete_existing "c1" w2State (by decide) (by decide) (by decide)).2.2.1⟩

/-! ## C4: result order of `getContacts` -/

/-- **C4**: however it is filtered, the list returned by `getContacts` is
sorted by `updatedAt` descending: any earlier element's `updatedAt` is ≥
any later element's. -/
theorem C4_sorted_by_updatedAt_desc (fl : Filters) (st : MemStorage) :
    (getContacts fl st).Pairwise (fun a b => b.updatedAt ≤ a.updatedAt) := by
  haveI : IsTotal Contact (fun a b => b.updatedAt ≤ a.updatedAt) :=
    ⟨fun a b => Int.le_total b.updatedAt a.updatedAt⟩
  haveI : IsTrans Contact (fun a b => b.updatedAt ≤ a.updatedAt) :=
    ⟨fun _ _ _ hab hbc => le_trans hbc hab⟩
  simp only [getContacts]
  exact List.sorted_insertionSort _ _

/-! ## C5: createContact round trip -/

/-- **C5**: the contact returned by `createContact` has
`createdAt = updatedAt`, its optional fields are `null` when omitted from
the input, and an immediately following `getContact` on its id returns the
very same record. -/
theorem C5_create_then_get (ins : InsertContact) (id : String) (now : Int) (st : MemStorage) :
    (createContact ins id now st).1.createdAt = (createContact ins id now st).1.updatedAt
      ∧ (ins.title = none → (createContact ins id now st).1.title = none)
      ∧ (ins.phone = none → (createContact ins id now st).1.phone = none)
      ∧ (ins.company = none → (createContact ins id now st).1.company = none)
      ∧ (ins.notes = none → (createContact ins id now st).1.notes = none)
      ∧ getContact id (createContact ins id now st).2 = some (createContact ins id now st).1 := by
  refine ⟨rfl, ?_, ?_, ?_, ?_, ?_⟩
  · intro h; simp [createContact, h, jsOrNull]
  · intro h; simp [createContact, h, jsOrNull]
  · intro h; simp [createContact, h, jsOrNull]
  · intro h; simp [createContact, h, jsOrNull]
  · simp only [getContact, createContact]
    exact mget_mset_self st.contacts id _

/-- A minimal insert record: only the required fields are given. -/
def minimalInsert : InsertContact := { name := "Ann", email := "ann@x.com" }

theorem C5_create_then_get_witness :
    (createContact minimalInsert "c1" 7 emptyStorage).1.createdAt
        = (createContact minimalInsert "c1" 7 emptyStorage).1.updatedAt
      ∧ (minimalInsert.title = none →
          (createContact minimalInsert "c1" 7 emptyStorage).1.title = none)
      ∧ (minimalInsert.phone = none →
          (createContact minimalInsert "c1" 7 emptyStorage).1.phone = none)
      ∧ (minimalInsert.company = none →
          (createContact minimalInsert "c1" 7 emptyStorage).1.company = none)
      ∧ (minimalInsert.notes = none →
          (createContact minimalInsert "c1" 7 emptyStorage).1.notes = none)
      ∧ getContact "c1" (createContact minimalInsert "c1" 7 emptyStorage).2
          = some (createContact minimalInsert "c1" 7 emptyStorage).1 :=
  C5_create_then_get minimalInsert "c1" 7 emptyStorage

/-! ## C9: the `"prospect"` default is never applied in memory -/

/-- **C9** is right about the schema but the code drops it: the
`contacts.status` column is declared `notNull` with default `"prospect"`
(`shared/schema.ts`), yet `MemStorage.createContact` only spreads the
insert object, so a contact created without `status` is stored and returned
with the field absent, not `"prospect"`. -/
theorem C9_default_status_missing :
    (createContact minimalInsert "c1" 0 emptyStorage).1.status = none
      ∧ (createContact minimalInsert "c1" 0 emptyStorage).1.status ≠ some "prospect"
      ∧ getContact "c1" (createContact minimalInsert "c1" 0 emptyStorage).2
          = some (createContact minimalInsert "c1" 0 emptyStorage).1 := by
  decide

/-! ## C10: empty-string filter values behave as absent -/

/-- **C10**: a filter given as `""` is falsy, so `getContacts` and
`getActivities` treat it exactly like an omitted filter; in particular
`getActivities ""` returns all activities rather than those whose
`contactId` is `""`. -/
theorem C10_empty_filter_is_absent (st : MemStorage) :
    getContacts { search := some "" } st = getContacts {} st
      ∧ getContacts { company := some "" } st = getContacts {} st
      ∧ getContacts { status := some "" } st = getContacts {} st
      ∧ getActivities (some "") st = getActivities none st :=
  ⟨rfl, rfl, rfl, rfl⟩

/-! ## C3: filter semantics of `getContacts` -/

/-- The filter predicate exactly as the claim words it: `search` matches a
case-insensitive substring of name, email, or (when company is present)
company; `company` and `status` match by exact equality with only `"all"`
as a no-filter sentinel. -/
def claimFilterMatch (fl : Filters) (c : Contact) : Bool :=
  (match fl.search with
   | some s =>
     jsIncludes c.name.toLower s.toLower || jsIncludes c.email.toLower s.toLower ||
       (match c.company with
        | some comp => jsIncludes comp.toLower s.toLower
        | none => false)
   | none => true) &&
  (match fl.company with
   | some comp => comp == "all" || decide (c.company = some comp)
   | none => true) &&
  (match fl.status with
   | some stat => stat == "all" || decide (c.status = some stat)
   | none => true)

/-- The filter predicate the code actually applies: each filter is skipped
when its value is falsy (absent or `""`), and `company`/`status` are also
skipped on the sentinel `"all"`. -/
def codeFilterMatch (fl : Filters) (c : Contact) : Bool :=
  (!(truthy fl.search) || searchMatch ((fl.search.getD "").toLower) c) &&
  ((!(truthy fl.company && ((fl.company.getD "") != "all"))) || decide (c.company = fl.company)) &&
  ((!(truthy fl.status && ((fl.status.getD "") != "all"))) || decide (c.status = fl.status))

/-- A contact on which the claimed and actual semantics of an empty-string
status filter differ. -/
def c3Contact : Contact :=
  ⟨"c1", "Ann", "ann@x.com", none, none, none, some "prospect", none, 0, 0⟩

/-- A state holding only `c3Contact`. -/
def c3State : MemStorage := ⟨[], [("c1", c3Contact)], []⟩

/-- **C3** is false as stated: with `status := ""` the code applies no
filter at all (the empty string is falsy) and returns the `"prospect"`
contact, though under the claimed exact-equality semantics a status filter
of `""` would exclude it. -/
theorem C3_counterexample :
    c3Contact ∈ getContacts { status := some "" } c3State
      ∧ claimFilterMatch { status := some "" } c3Contact = false := by
  decide

/-- **C3** (amended): `getContacts` returns exactly the contacts satisfying
the conjunction of the provided filters, where a filter whose value is
falsy (absent or `""`) applies no filter, `company`/`status` additionally
treat `"all"` as no filter, and a truthy `search` matches as claimed; in
particular `{status := "all"}` returns the same list as no filters. -/
theorem C3_filter_semantics (fl : Filters) (st : MemStorage) :
    (∀ c, c ∈ getContacts fl st ↔ c ∈ st.contacts.map Prod.snd ∧ codeFilterMatch fl c = true)
      ∧ getContacts { status := some "all" } st = getContacts {} st := by
  constructor
  · intro c
    simp only [getContacts, List.mem_insertionSort]
    rw [mem_filter_if, mem_filter_if, mem_filter_if]
    simp only [codeFilterMatch, Bool.and_eq_true, ← imp_iff_not_or_bool]
    tauto
  · rfl

theorem C3_filter_semantics_witness :
    (c3Contact ∈ getContacts { status := some "" } c3State
        ↔ c3Contact ∈ c3State.contacts.map Prod.snd
            ∧ codeFilterMatch { status := some "" } c3Contact = true)
      ∧ getContacts { status := some "all" } c3State = getContacts {} c3State :=
  ⟨(C3_filter_semantics { status := some "" } c3State).1 c3Contact,
   (C3_filter_semantics { status := some "" } c3State).2⟩

/-! ## C6: updateContact frame conditions -/

/-- **C6**: on an existing id, `updateContact` keeps `id` and `createdAt`,
keeps every field the patch does not mention, and (under clock
monotonicity, `old.updatedAt ≤ now`) moves `updatedAt` forward; on a
missing id it returns `none`. -/
theorem C6_update_frame (id : String) (p : ContactUpdate) (now : Int) (st : MemStorage) :
    (∀ old, getContact id st = some old → old.updatedAt ≤ now →
      ∃ r, (updateContact id p now st).1 = some r
        ∧ r.id = old.id ∧ r.createdAt = old.createdAt ∧ old.updatedAt ≤ r.updatedAt
        ∧ (p.name = none → r.name = old.name)
        ∧ (p.email = none → r.email = old.email)
        ∧ (p.phone = none → r.phone = old.phone)
        ∧ (p.company = none → r.company = old.company)
        ∧ (p.title = none → r.title = old.title)
        ∧ (p.status = none → r.status = old.status)
        ∧ (p.notes = none → r.notes = old.notes))
      ∧ (getContact id st = none → (updateContact id p now st).1 = none) := by
  constructor
  · intro old hold hmono
    rw [getContact] at hold
    simp only [updateContact, hold]
    refine ⟨_, rfl, rfl, rfl, hmono, ?_, ?_, ?_, ?_, ?_, ?_, ?_⟩
      <;> intro h <;> simp [h]
  · intro hnone
    rw [getContact] at hnone
    simp only [updateContact, hnone]

/-- A one-contact state for the `updateContact` witness. -/
def w6Old : Contact :=
  ⟨"c1", "Ann", "ann@x.com", none, none, none, some "prospect", none, 0, 0⟩

def w6State : MemStorage := ⟨[], [("c1", w6Old)], []⟩

/-- A patch that only renames. -/
def w6Patch : ContactUpdate := { name := some "Bea" }

theorem C6_update_frame_witness :
    ∃ r, (updateContact "c1" w6Patch 5 w6State).1 = some r
      ∧ r.id = w6Old.id ∧ r.createdAt = w6Old.createdAt ∧ w6Old.updatedAt ≤ r.updatedAt
      ∧ (w6Patch.name = none → r.name = w6Old.name)
      ∧ (w6Patch.email = none → r.email = w6Old.email)
      ∧ (w6Patch.phone = none → r.phone = w6Old.phone)
      ∧ (w6Patch.company = none → r.company = w6Old.company)
      ∧ (w6Patch.title = none → r.title = w6Old.title)
      ∧ (w6Patch.status = none → r.status = w6Old.status)
      ∧ (w6Patch.notes = none → r.notes = w6Old.notes) :=
  (C6_update_frame "c1" w6Patch 5 w6State).1 w6Old (by decide) (by decide)

/-! ## C7: conversionRate -/

/-- The claim's rounding: `x` rounded to one decimal place, half up. -/
def roundToOneDecimal (x : ℚ) : ℚ := ((x * 10 + 1/2).floor : ℚ) / 10

/-- The scenario state of the claim: four contacts created with statuses
`prospect, prospect, active, active`. -/
def fourContactState : MemStorage :=
  (createContact { name := "Dana", email := "dana@x.com", status := some "active" } "c4" 3
    ((createContact { name := "Carl", email := "carl@x.com", status := some "active" } "c3" 2
      ((createContact { name := "Beth", email := "beth@x.com", status := some "prospect" } "c2" 1
        ((createContact { name := "Ann", email := "ann@x.com", status := some "prospect" } "c1" 0
          emptyStorage).2)).2)).2)).2

/-- **C7**: `conversionRate` is the share of `"active"` contacts times 100,
rounded to one decimal place, and `0` on an empty contact set; every metric
is `0` on an empty repository, and the four-contact scenario yields
`totalContacts = 4`, `activeLeads = 2`, `conversionRate = 50.0`. -/
theorem C7_conversion_rate (ts tom : Int) (st : MemStorage) :
    (getMetrics ts tom st).conversionRate
        = (if st.contacts.length = 0 then 0
           else roundToOneDecimal
             ((((st.contacts.map Prod.snd).countP (fun c => decide (c.status = some "active"))) : ℚ)
               / (st.contacts.length : ℚ) * 100))
      ∧ getMetrics ts tom emptyStorage = ⟨0, 0, 0, 0⟩
      ∧ getMetrics ts tom fourContactState = ⟨4, 2, 0, 50⟩ := by
  refine ⟨?_, ?_, ?_⟩
  · simp only [getMetrics, jsRound, roundToOneDecimal, List.length_map,
      List.countP_eq_length_filter, rat_floor_eq_floor]
    by_cases h : st.contacts.length = 0
    · simp only [h, if_pos rfl, gt_iff_lt, lt_irrefl, if_neg (lt_irrefl 0), if_false]
      norm_num
    · have hpos : 0 < st.contacts.length := Nat.pos_of_ne_zero h
      simp only [if_neg h, gt_iff_lt, if_pos hpos]
  · simp only [getMetrics, emptyStorage, jsRound, rat_floor_eq_floor]
    norm_num
  · have hrecord : getMetrics ts tom fourContactState
        = ⟨4, 2, 0, (jsRound ((((2:ℕ):ℚ) / ((4:ℕ):ℚ) * 100) * 10) : ℚ) / 10⟩ := rfl
    rw [hrecord]
    simp only [jsRound, rat_floor_eq_floor, Metrics.mk.injEq]
    norm_num

/-! ## C8: the todayActivities window -/

/-- **C8**: `todayActivities` counts exactly the activities whose
`createdAt` lies in the half-open local-day window
`[todayStart, tomorrowStart)`; with a single stored activity, one created
exactly at `todayStart` is counted and one created 1000 ms before
`todayStart` (23:59:59 of the previous day) is not. -/
theorem C8_today_window (ts tom : Int) (st : MemStorage) (h : ts < tom) :
    (getMetrics ts tom st).todayActivities
        = (st.activities.map Prod.snd).countP
            (fun a => decide (ts ≤ a.createdAt ∧ a.createdAt < tom))
      ∧ (∀ k a, st.activities = [(k, a)] → a.createdAt = ts →
          (getMetrics ts tom st).todayActivities = 1)
      ∧ (∀ k a, st.activities = [(k, a)] → a.createdAt = ts - 1000 →
          (getMetrics ts tom st).todayActivities = 0) := by
  refine ⟨?_, ?_, ?_⟩
  · simp only [getMetrics, List.countP_eq_length_filter, Bool.decide_and]
  · intro k a hst hca
    have hle : ts ≤ a.createdAt := le_of_eq hca.symm
    have hlt : a.createdAt < tom := hca ▸ h
    simp [getMetrics, hst, hle, hlt]
  · intro k a hst hca
    have hnle : ¬(ts ≤ a.createdAt) := by omega
    simp [getMetrics, hst, hnle]

/-- A single activity created exactly at the start of the day. -/
def w8State : MemStorage := ⟨[], [], [("a1", ⟨"a1", "c1", "call", "Kickoff", none, none, none, 0⟩)]⟩

theorem C8_today_window_witness :
    (getMetrics 0 86400000 w8State).todayActivities
        = (w8State.activities.map Prod.snd).countP
            (fun a => decide ((0:Int) ≤ a.createdAt ∧ a.createdAt < 86400000))
      ∧ (getMetrics 0 86400000 w8State).todayActivities = 1 :=
  ⟨(C8_today_window 0 86400000 w8State (by decide)).1,
   (C8_today_window 0 86400000 w8State (by decide)).2.1 "a1"
     ⟨"a1", "c1", "call", "Kickoff", none, none, none, 0⟩ rfl rfl⟩

end CRM

